import Mathlib

/-!
# Verification of the curriculum-to-execution-request compiler

A shallow embedding of `ludic/training/batching/intra_batch_control.py` and
`ludic/training/batching/requests_from_dataset.py`, together with proofs of
the behavioural properties of the request sources and request strategies.

Conventions of the embedding:
* Python `Dict[str, JSON]` values are association lists `List (String × J)`
  over an abstract JSON value type `J`; the Python dict-merge
  `\x7b**d, k: v\x7d` is `dictInsert` (update in place when the key exists,
  append otherwise, matching insertion-order semantics of `dict`).
* The strategy's private `random.Random()` is an oracle `rng : Nat → Int`
  consumed through an explicit draw counter, and `uuid.uuid4()` is an oracle
  `uuids : Nat → String` consumed through a per-base-request counter;
  `inj : String → J` embeds the generated `group_id` string into JSON.
* The sequence source's `random.Random(rng_seed)` is an abstract
  deterministic state `S` with a `shuf : S → List Nat → List Nat × S`
  transition standing for the in-place `rng.shuffle`.
* Exceptions are `Except String`; raising `ValueError` or
  `RequestsExhausted` is returning `Except.error` with the message.
-/

set_option autoImplicit false

universe u

/-- Modelled from the spec: `EnvSpec` is the immutable pair of an environment
registry `kind` and its construction `kwargs` (the type lives in
`ludic/training/types.py`, which only declares this data). -/
structure EnvSpec (J : Type u) where
  kind : String
  kwargs : List (String × J)
  deriving Repr, DecidableEq

/-- Modelled from the spec: `ProtocolSpec` has the same shape as `EnvSpec`,
for an interaction protocol. -/
structure ProtocolSpec (J : Type u) where
  kind : String
  kwargs : List (String × J)
  deriving Repr, DecidableEq

/-- Modelled from the spec: `RolloutRequest` is the immutable descriptor of
one unit of execution; every transformation produces a new instance via
structural copy-with-overrides (`dataclasses.replace`). `inference` is an
opaque external `InferenceSpec`, held abstractly as a JSON value. -/
structure RolloutRequest (J : Type u) where
  env : EnvSpec J
  protocol : ProtocolSpec J
  num_episodes : Int
  env_seed : Option Int := none
  sampling_seed : Option Int := none
  inference : Option J := none
  meta : List (String × J) := []
  deriving Repr, DecidableEq

/-- Python dict merge `\x7b**d, k: v\x7d` on an association list: replace the
value in place when `k` is present, append `(k, v)` otherwise. -/
def dictInsert {J : Type u} (d : List (String × J)) (k : String) (v : J) :
    List (String × J) :=
  if d.any (fun p => p.1 == k) then
    d.map (fun p => if p.1 == k then (k, v) else p)
  else
    d ++ [(k, v)]

/-- `IdentityStrategy.expand`: returns its input unchanged. -/
def IdentityStrategy.expand {J : Type u} (requests : List (RolloutRequest J)) :
    List (RolloutRequest J) :=
  requests

/-- `GRPORequestStrategy.__init__`: `group_size <= 0` raises `ValueError`
before any call to `expand`. -/
def GRPORequestStrategy.validate (group_size : Int) : Except String Unit :=
  if group_size ≤ 0 then
    Except.error "group_size must be positive"
  else
    Except.ok ()

/-- One seed resolution step of `GRPORequestStrategy.expand`: take the
request's explicit seed when present, else draw `self._rng.randint(0, 2**32-1)`
(the oracle `rng` at the current draw counter) and advance the counter. -/
def grpoDraw (rng : Nat → Int) (explicit : Option Int) (rc : Nat) : Int × Nat :=
  match explicit with
  | some s => (s, rc)
  | none => (rng rc, rc + 1)

/-- The inner `for i in range(self.group_size)` loop of
`GRPORequestStrategy.expand`: the `G` variants of one base request, given the
group's resolved env seed, base sampling seed and fresh `group_id`. -/
def grpoGroup {J : Type u} (G : Nat) (inj : String → J)
    (base : RolloutRequest J) (genv bss : Int) (gid : String) :
    List (RolloutRequest J) :=
  (List.range G).map fun (i : Nat) =>
    { base with
      env_seed := some genv
      sampling_seed := some (bss + (i : Int))
      meta := dictInsert base.meta "group_id" (inj gid)
      num_episodes := 1 }

/-- The outer loop of `GRPORequestStrategy.expand`, threading the rng draw
counter `rc` and the uuid counter `uc`. -/
def grpoExpandAux {J : Type u} (G : Nat) (rng : Nat → Int)
    (uuids : Nat → String) (inj : String → J) :
    List (RolloutRequest J) → Nat → Nat → List (RolloutRequest J)
  | [], _, _ => []
  | base :: rest, rc, uc =>
    let p1 := grpoDraw rng base.env_seed rc
    let p2 := grpoDraw rng base.sampling_seed p1.2
    grpoGroup G inj base p1.1 p2.1 (uuids uc) ++
      grpoExpandAux G rng uuids inj rest p2.2 (uc + 1)

/-- `GRPORequestStrategy.expand` on a freshly constructed strategy (both
oracle counters start at zero). -/
def GRPORequestStrategy.expand {J : Type u} (G : Nat) (rng : Nat → Int)
    (uuids : Nat → String) (inj : String → J)
    (requests : List (RolloutRequest J)) : List (RolloutRequest J) :=
  grpoExpandAux G rng uuids inj requests 0 0

/-- The per-base-request `(group_env_seed, base_sampling_seed)` pairs that
`GRPORequestStrategy.expand` resolves, as a state-threaded scan. -/
def grpoSeeds {J : Type u} (rng : Nat → Int) :
    List (RolloutRequest J) → Nat → List (Int × Int)
  | [], _ => []
  | base :: rest, rc =>
    let p1 := grpoDraw rng base.env_seed rc
    let p2 := grpoDraw rng base.sampling_seed p1.2
    (p1.1, p2.1) :: grpoSeeds rng rest p2.2

/-- The list of per-base-request groups produced by
`GRPORequestStrategy.expand`; the flat output is their concatenation. -/
def grpoGroupsList {J : Type u} (G : Nat) (rng : Nat → Int)
    (uuids : Nat → String) (inj : String → J) :
    List (RolloutRequest J) → Nat → Nat → List (List (RolloutRequest J))
  | [], _, _ => []
  | base :: rest, rc, uc =>
    let p1 := grpoDraw rng base.env_seed rc
    let p2 := grpoDraw rng base.sampling_seed p1.2
    grpoGroup G inj base p1.1 p2.1 (uuids uc) ::
      grpoGroupsList G rng uuids inj rest p2.2 (uc + 1)

/-- The expected `(env_seed, sampling_seed)` pairs of the expanded batch when
every base request carries explicit seeds: a pure function of the input batch
alone, with no reference to the strategy's random stream. -/
def grpoSeedPlan {J : Type u} (G : Nat) (reqs : List (RolloutRequest J)) :
    List (Option Int × Option Int) :=
  reqs.flatMap fun base =>
    (List.range G).map fun (i : Nat) =>
      (base.env_seed, base.sampling_seed.map (· + (i : Int)))

/-- Exhaustion policy of the queue-backed source (`on_empty`). -/
inductive OnEmpty where
  | raiseExhausted
  | returnEmpty
  deriving Repr, DecidableEq

/-- `make_requests_fn_from_queue`: construction-time validation
(`batch_size <= 0` raises `ValueError`). -/
def makeRequestsFnFromQueueCheck (batch_size : Int) : Except String Unit :=
  if batch_size ≤ 0 then
    Except.error "batch_size must be positive"
  else
    Except.ok ()

/-- The `_fn` closure of `make_requests_fn_from_queue`: up to `batch_size`
non-blocking pulls from the FIFO (modelled as a list read from the front),
stopping at the first empty report; an empty pull is resolved by the
`on_empty` policy, a non-empty one is optionally strategy-expanded. Returns
the produced result together with the remaining queue contents. -/
def queueProduce {J Q : Type u} (batch_size : Nat)
    (build : Q → RolloutRequest J)
    (strat : Option (List (RolloutRequest J) → List (RolloutRequest J)))
    (on_empty : OnEmpty) (q : List Q) :
    Except String (List (RolloutRequest J)) × List Q :=
  let reqs := (q.take batch_size).map build
  let rest := q.drop batch_size
  if reqs.isEmpty then
    match on_empty with
    | OnEmpty.returnEmpty => (Except.ok [], rest)
    | OnEmpty.raiseExhausted =>
      (Except.error "Queue is empty; no more requests to generate.", rest)
  else
    match strat with
    | some f => (Except.ok (f reqs), rest)
    | none => (Except.ok reqs, rest)

/-- The builder configuration shared by `make_dataset_queue_requests_fn` and
`make_dataset_sequence_requests_fn`: environment/protocol kinds, the optional
override functions, and the inference spec. Samples live in the JSON type. -/
structure BuildCfg (J : Type u) where
  env_kind : String
  protocol_kind : String
  inference : Option J := none
  env_kwargs_fn : Option (J → List (String × J)) := none
  protocol_kwargs : List (String × J) := []
  request_meta_fn : Option (Nat → J → List (String × J)) := none
  env_seed_fn : Option (Nat → J → Int) := none
  sampling_seed_fn : Option (Nat → J → Int) := none

/-- `env_kwargs_fn_final`: the override, defaulting to
`lambda sample: \x7b"sample": sample\x7d`. -/
def BuildCfg.envKwargsFinal {J : Type u} (cfg : BuildCfg J) :
    J → List (String × J) :=
  cfg.env_kwargs_fn.getD (fun sample => [("sample", sample)])

/-- `env_seed_fn_final`: the override, defaulting to `lambda idx, _: idx`. -/
def BuildCfg.envSeedFinal {J : Type u} (cfg : BuildCfg J) : Nat → J → Int :=
  cfg.env_seed_fn.getD (fun idx _ => (idx : Int))

/-- `sampling_seed_fn_final`: the override, defaulting to
`lambda idx, _: idx`. -/
def BuildCfg.sampSeedFinal {J : Type u} (cfg : BuildCfg J) : Nat → J → Int :=
  cfg.sampling_seed_fn.getD (fun idx _ => (idx : Int))

/-- The `meta` construction: empty unless `request_meta_fn` is supplied. -/
def BuildCfg.metaFinal {J : Type u} (cfg : BuildCfg J) :
    Nat → J → List (String × J) :=
  cfg.request_meta_fn.getD (fun _ _ => [])

/-- The shared per-sample request construction (`_build` of the queue factory
and the loop body of the sequence factory's `_fn`): one `RolloutRequest` from
the pair of an unshuffled dataset index and a raw sample. -/
def buildRequestAt {J : Type u} (cfg : BuildCfg J) (idx : Nat) (sample : J) :
    RolloutRequest J :=
  { env := ⟨cfg.env_kind, cfg.envKwargsFinal sample⟩
    protocol := ⟨cfg.protocol_kind, cfg.protocol_kwargs⟩
    num_episodes := 1
    env_seed := some (cfg.envSeedFinal idx sample)
    sampling_seed := some (cfg.sampSeedFinal idx sample)
    inference := cfg.inference
    meta := cfg.metaFinal idx sample }

/-- Configuration of `make_dataset_sequence_requests_fn` on top of the shared
builder configuration. -/
structure SeqCfg (J : Type u) extends BuildCfg J where
  samples : List J
  batch_size : Nat
  group_size : Int := 1
  shuffle : Bool := false

/-- `make_dataset_sequence_requests_fn`: construction-time validation. Empty
`samples` raises `ValueError`; a `group_size` other than `1` constructs
`GRPORequestStrategy(group_size)`, which itself validates positivity. The
`batch_size` argument is accepted without any check. -/
def makeDatasetSequenceRequestsFnCheck {J : Type u} (samples : List J)
    (batch_size : Int) (group_size : Int) : Except String Unit :=
  if samples.isEmpty then
    Except.error "samples must be non-empty"
  else if group_size ≠ 1 then
    GRPORequestStrategy.validate group_size
  else
    Except.ok ()

/-- Mutable cursor state of the sequence source: the current visitation
`order`, the cursor `pos`, and the private PRNG state. -/
structure SeqState (S : Type u) where
  pos : Nat
  order : List Nat
  rng : S
  deriving Repr, DecidableEq

/-- A fresh visitation order over `n` samples: `list(range(n))`, shuffled in
place through the source's PRNG when `shuffle` is set. -/
def freshOrder {S : Type u} (shuf : S → List Nat → List Nat × S) (n : Nat)
    (shuffle : Bool) (rng : S) : List Nat × S :=
  if shuffle then shuf rng (List.range n) else (List.range n, rng)

/-- The state the sequence source holds right after construction (and after
every epoch reset): cursor at zero over a fresh order. -/
def seqInitState {S : Type u} (shuf : S → List Nat → List Nat × S) (n : Nat)
    (shuffle : Bool) (rng : S) : SeqState S :=
  let p := freshOrder shuf n shuffle rng
  ⟨0, p.1, p.2⟩

/-- One iteration of the sequence source's loop body, up to the point where
`idx = order[pos]; pos += 1` has executed: reset the epoch when the cursor
has run off the end, then serve the index under the cursor. -/
def seqNextIdx {S : Type u} (shuf : S → List Nat → List Nat × S) (n : Nat)
    (shuffle : Bool) (st : SeqState S) : Nat × SeqState S :=
  let st' := if st.order.length ≤ st.pos then
      seqInitState shuf n shuffle st.rng
    else st
  (st'.order.getD st'.pos 0, ⟨st'.pos + 1, st'.order, st'.rng⟩)

/-- The visitation indices served by `b` consecutive loop iterations. -/
def seqIdxList {S : Type u} (shuf : S → List Nat → List Nat × S) (n : Nat)
    (shuffle : Bool) : Nat → SeqState S → List Nat × SeqState S
  | 0, st => ([], st)
  | b + 1, st =>
    let p := seqNextIdx shuf n shuffle st
    let q := seqIdxList shuf n shuffle b p.2
    (p.1 :: q.1, q.2)

/-- The loop of the sequence source's `_fn`, exactly as interleaved in the
source: advance the cursor, look the sample up, build one request, repeat. -/
def seqProduceLoop {J S : Type u} [Inhabited J]
    (shuf : S → List Nat → List Nat × S) (cfg : SeqCfg J) :
    Nat → SeqState S → List (RolloutRequest J) × SeqState S
  | 0, st => ([], st)
  | b + 1, st =>
    let p := seqNextIdx shuf cfg.samples.length cfg.shuffle st
    let r := buildRequestAt cfg.toBuildCfg p.1 (cfg.samples.getD p.1 default)
    let q := seqProduceLoop shuf cfg b p.2
    (r :: q.1, q.2)

/-- The sequence source's `_fn` before strategy expansion: `batch_size`
iterations of the loop. -/
def seqProduceBase {J S : Type u} [Inhabited J]
    (shuf : S → List Nat → List Nat × S) (cfg : SeqCfg J) (st : SeqState S) :
    List (RolloutRequest J) × SeqState S :=
  seqProduceLoop shuf cfg cfg.batch_size st

/-- The sequence source's `_fn` including the final strategy step: when
`group_size != 1` the batch is passed through
`GRPORequestStrategy(group_size).expand` (oracles `rng`, `uuids`, `inj` as in
`GRPORequestStrategy.expand`). -/
def seqProduce {J S : Type u} [Inhabited J]
    (shuf : S → List Nat → List Nat × S) (cfg : SeqCfg J) (rng : Nat → Int)
    (uuids : Nat → String) (inj : String → J) (st : SeqState S) :
    List (RolloutRequest J) × SeqState S :=
  let p := seqProduceBase shuf cfg st
  if cfg.group_size = 1 then p
  else (GRPORequestStrategy.expand cfg.group_size.toNat rng uuids inj p.1, p.2)

/-- The visitation indices of `k` consecutive `produce_batch()` calls, one
inner list per call. -/
def seqCallTraces {S : Type u} (shuf : S → List Nat → List Nat × S) (n : Nat)
    (shuffle : Bool) (batch_size : Nat) :
    Nat → SeqState S → List (List Nat)
  | 0, _ => []
  | k + 1, st =>
    let p := seqIdxList shuf n shuffle batch_size st
    p.1 :: seqCallTraces shuf n shuffle batch_size k p.2

/-- The request batches of `k` consecutive `produce_batch()` calls of the
sequence source (before strategy expansion), one inner list per call. -/
def seqCallBatches {J S : Type u} [Inhabited J]
    (shuf : S → List Nat → List Nat × S) (cfg : SeqCfg J) :
    Nat → SeqState S → List (List (RolloutRequest J))
  | 0, _ => []
  | k + 1, st =>
    let p := seqProduceBase shuf cfg st
    p.1 :: seqCallBatches shuf cfg k p.2

/-- Observation function on meta bags: the value stored under a key
(first-match lookup, mirroring Python `d[k]`). -/
def lookupKey {J : Type u} : List (String × J) → String → Option J
  | [], _ => none
  | (k, v) :: t, a => if k = a then some v else lookupKey t a

/-- A trivial shuffle oracle (identity permutation), used where `shuffle` is
disabled and the PRNG is never consulted. -/
def trivialShuffle : Unit → List Nat → List Nat × Unit :=
  fun s l => (l, s)

/-- An injective supply of fresh group-id strings, standing for the stream of
`uuid.uuid4()` values (which are globally unique). -/
def uuidSupply : Nat → String :=
  fun n => String.mk (List.replicate n 'u')

/-- A concrete request used to feed the queue source in scenarios. -/
def natReq (n : Nat) : RolloutRequest String :=
  { env := ⟨"env", [("sample", toString n)]⟩
    protocol := ⟨"proto", []⟩
    num_episodes := 1
    env_seed := some (n : Int)
    sampling_seed := some (n : Int) }

/-- The sequence-source configuration of the `[A, B, C]` scenario:
three samples, `batch_size = 5`, `shuffle = False`, no grouping. -/
def seqCfgABC : SeqCfg String :=
  { env_kind := "env", protocol_kind := "proto"
    samples := ["A", "B", "C"], batch_size := 5 }

/-- A sequence-source configuration with a GRPO strategy attached
(`group_size = 2`) over a single sample with `batch_size = 1`. -/
def seqCfgGrouped : SeqCfg String :=
  { env_kind := "env", protocol_kind := "proto"
    samples := ["A"], batch_size := 1, group_size := 2 }

/-- Well-formedness of the cursor state: every index in the current visitation
order points into the dataset. -/
def ordOK {S : Type u} (n : Nat) (st : SeqState S) : Prop :=
  ∀ i ∈ st.order, i < n

/-- The sequence-source configuration of the shuffled determinism scenario:
the `[A, B, C]` configuration with `shuffle` enabled. -/
def seqCfgShuffledABC : SeqCfg String :=
  { seqCfgABC with shuffle := true }

/-- A second shuffled configuration over a different same-size dataset. -/
def seqCfgShuffledXYZ : SeqCfg String :=
  { env_kind := "env2", protocol_kind := "proto2"
    samples := ["X", "Y", "Z"], batch_size := 5, shuffle := true }

theorem lookupKey_map_replace {J : Type u} (d : List (String × J))
    (k a : String) (v : J) (hne : a ≠ k) :
    lookupKey (d.map (fun p => if p.1 == k then (k, v) else p)) a =
      lookupKey d a := by
  induction d with
  | nil => rfl
  | cons hd t ih =>
    simp only [List.map_cons]
    by_cases hk : hd.1 = k
    · have hb : (hd.1 == k) = true := by simp [hk]
      rw [show (if hd.1 == k then (k, v) else hd) = (k, v) by simp [hb]]
      have hka : ¬ k = a := fun he => hne he.symm
      have hda : ¬ hd.1 = a := by rw [hk]; exact hka
      simp only [lookupKey, if_neg hka, if_neg hda]
      exact ih
    · have hb : (hd.1 == k) = false := by simp [hk]
      rw [show (if hd.1 == k then (k, v) else hd) = hd by simp [hb]]
      by_cases ha : hd.1 = a
      · simp only [lookupKey, if_pos ha]
      · simp only [lookupKey, if_neg ha]
        exact ih

theorem lookupKey_append_one_ne {J : Type u} (d : List (String × J))
    (k a : String) (v : J) (hne : a ≠ k) :
    lookupKey (d ++ [(k, v)]) a = lookupKey d a := by
  have hka : ¬ k = a := fun he => hne he.symm
  induction d with
  | nil => simp [lookupKey, hka]
  | cons hd t ih =>
    by_cases ha : hd.1 = a
    · simp [lookupKey, ha]
    · simp [lookupKey, ha, ih]

theorem lookupKey_dictInsert_self {J : Type u} (d : List (String × J))
    (k : String) (v : J) : lookupKey (dictInsert d k v) k = some v := by
  unfold dictInsert
  split
  case isTrue h =>
    induction d with
    | nil => simp at h
    | cons hd t ih =>
      simp only [List.map_cons]
      by_cases hk : hd.1 = k
      · have hb : (hd.1 == k) = true := by simp [hk]
        rw [show (if hd.1 == k then (k, v) else hd) = (k, v) by simp [hb]]
        simp [lookupKey]
      · have hb : (hd.1 == k) = false := by simp [hk]
        rw [show (if hd.1 == k then (k, v) else hd) = hd by simp [hb]]
        simp only [List.any_cons, hb, Bool.false_or] at h
        simp only [lookupKey, if_neg hk]
        exact ih h
  case isFalse h =>
    induction d with
    | nil => simp [lookupKey]
    | cons hd t ih =>
      simp only [List.any_cons, Bool.or_eq_true, not_or] at h
      have hk : ¬ hd.1 = k := fun he => by simp [he] at h
      simp only [List.cons_append, lookupKey, if_neg hk]
      exact ih (by simpa using h.2)

theorem lookupKey_dictInsert_ne {J : Type u} (d : List (String × J))
    (k a : String) (v : J) (hne : a ≠ k) :
    lookupKey (dictInsert d k v) a = lookupKey d a := by
  unfold dictInsert
  split
  · exact lookupKey_map_replace d k a v hne
  · exact lookupKey_append_one_ne d k a v hne

theorem grpoGroup_length {J : Type u} (G : Nat) (inj : String → J)
    (base : RolloutRequest J) (genv bss : Int) (gid : String) :
    (grpoGroup G inj base genv bss gid).length = G := by
  unfold grpoGroup
  rw [List.length_map, List.length_range]

theorem grpoGroup_getElem? {J : Type u} (G : Nat) (inj : String → J)
    (base : RolloutRequest J) (genv bss : Int) (gid : String) (i : Nat)
    (hi : i < G) :
    (grpoGroup G inj base genv bss gid)[i]? =
      some { base with
             env_seed := some genv
             sampling_seed := some (bss + (i : Int))
             meta := dictInsert base.meta "group_id" (inj gid)
             num_episodes := 1 } := by
  unfold grpoGroup
  rw [List.getElem?_map, List.getElem?_range hi]
  rfl

theorem mem_grpoGroup {J : Type u} {G : Nat} {inj : String → J}
    {base : RolloutRequest J} {genv bss : Int} {gid : String}
    {r : RolloutRequest J} (hr : r ∈ grpoGroup G inj base genv bss gid) :
    ∃ i, i < G ∧ r =
      { base with
        env_seed := some genv
        sampling_seed := some (bss + (i : Int))
        meta := dictInsert base.meta "group_id" (inj gid)
        num_episodes := 1 } := by
  unfold grpoGroup at hr
  obtain ⟨i, hi, he⟩ := List.mem_map.mp hr
  exact ⟨i, List.mem_range.mp hi, he.symm⟩

theorem grpoExpandAux_eq_join {J : Type u} (G : Nat) (rng : Nat → Int)
    (uuids : Nat → String) (inj : String → J) :
    ∀ (reqs : List (RolloutRequest J)) (rc uc : Nat),
      grpoExpandAux G rng uuids inj reqs rc uc =
        (grpoGroupsList G rng uuids inj reqs rc uc).flatten := by
  intro reqs
  induction reqs with
  | nil => intro rc uc; rfl
  | cons base rest ih =>
    intro rc uc
    simp only [grpoExpandAux, grpoGroupsList, List.flatten_cons, ih]

theorem grpoExpandAux_length {J : Type u} (G : Nat) (rng : Nat → Int)
    (uuids : Nat → String) (inj : String → J) :
    ∀ (reqs : List (RolloutRequest J)) (rc uc : Nat),
      (grpoExpandAux G rng uuids inj reqs rc uc).length = reqs.length * G := by
  intro reqs
  induction reqs with
  | nil => intro rc uc; simp [grpoExpandAux]
  | cons base rest ih =>
    intro rc uc
    simp only [grpoExpandAux, List.length_append, List.length_cons,
      grpoGroup_length, ih]
    ring

theorem grpoGroupsList_length {J : Type u} (G : Nat) (rng : Nat → Int)
    (uuids : Nat → String) (inj : String → J) :
    ∀ (reqs : List (RolloutRequest J)) (rc uc : Nat),
      (grpoGroupsList G rng uuids inj reqs rc uc).length = reqs.length := by
  intro reqs
  induction reqs with
  | nil => intro rc uc; rfl
  | cons base rest ih =>
    intro rc uc
    simp only [grpoGroupsList, List.length_cons, ih]

theorem grpoSeeds_length {J : Type u} (rng : Nat → Int) :
    ∀ (reqs : List (RolloutRequest J)) (rc : Nat),
      (grpoSeeds rng reqs rc).length = reqs.length := by
  intro reqs
  induction reqs with
  | nil => intro rc; rfl
  | cons base rest ih =>
    intro rc
    simp only [grpoSeeds, List.length_cons, ih]

theorem grpoGroupsList_getElem? {J : Type u} (G : Nat) (rng : Nat → Int)
    (uuids : Nat → String) (inj : String → J) :
    ∀ (reqs : List (RolloutRequest J)) (rc uc b : Nat)
      (base : RolloutRequest J) (p : Int × Int),
      reqs[b]? = some base →
      (grpoSeeds rng reqs rc)[b]? = some p →
      (grpoGroupsList G rng uuids inj reqs rc uc)[b]? =
        some (grpoGroup G inj base p.1 p.2 (uuids (uc + b))) := by
  intro reqs
  induction reqs with
  | nil => intro rc uc b base p h _; simp at h
  | cons req rest ih =>
    intro rc uc b base p h hp
    cases b with
    | zero =>
      simp only [List.getElem?_cons_zero, Option.some.injEq] at h
      subst h
      simp only [grpoSeeds, List.getElem?_cons_zero, Option.some.injEq] at hp
      subst hp
      simp [grpoGroupsList]
    | succ b =>
      simp only [List.getElem?_cons_succ] at h
      simp only [grpoSeeds, List.getElem?_cons_succ] at hp
      simp only [grpoGroupsList, List.getElem?_cons_succ]
      rw [ih _ _ _ _ _ h hp]
      have huc : uc + 1 + b = uc + (b + 1) := by omega
      rw [huc]

theorem grpoSeeds_explicit {J : Type u} (rng : Nat → Int) :
    ∀ (reqs : List (RolloutRequest J)) (rc b : Nat)
      (base : RolloutRequest J) (p : Int × Int),
      reqs[b]? = some base →
      (grpoSeeds rng reqs rc)[b]? = some p →
      (∀ s, base.env_seed = some s → p.1 = s) ∧
      (∀ s, base.sampling_seed = some s → p.2 = s) := by
  intro reqs
  induction reqs with
  | nil => intro rc b base p h _; simp at h
  | cons req rest ih =>
    intro rc b base p h hp
    cases b with
    | zero =>
      simp only [List.getElem?_cons_zero, Option.some.injEq] at h
      subst h
      simp only [grpoSeeds, List.getElem?_cons_zero, Option.some.injEq] at hp
      subst hp
      constructor
      · intro s hs; simp [grpoDraw, hs]
      · intro s hs; simp [grpoDraw, hs]
    | succ b =>
      simp only [List.getElem?_cons_succ] at h
      simp only [grpoSeeds, List.getElem?_cons_succ] at hp
      exact ih _ _ _ _ h hp

theorem grpoSeeds_isSome {J : Type u} (rng : Nat → Int)
    (reqs : List (RolloutRequest J)) (rc b : Nat) (hb : b < reqs.length) :
    ∃ p, (grpoSeeds rng reqs rc)[b]? = some p := by
  have hl : b < (grpoSeeds rng reqs rc).length := by
    rw [grpoSeeds_length]; exact hb
  exact ⟨(grpoSeeds rng reqs rc)[b], List.getElem?_eq_getElem hl⟩

theorem uuidSupply_injective : Function.Injective uuidSupply := by
  intro a b h
  have hd : List.replicate a 'u' = List.replicate b 'u' := congrArg String.data h
  exact List.replicate_left_injective 'u' hd

theorem seqProduceLoop_eq_map {J S : Type u} [Inhabited J]
    (shuf : S → List Nat → List Nat × S) (cfg : SeqCfg J) :
    ∀ (b : Nat) (st : SeqState S),
      seqProduceLoop shuf cfg b st =
        (((seqIdxList shuf cfg.samples.length cfg.shuffle b st).1).map
            (fun i => buildRequestAt cfg.toBuildCfg i (cfg.samples.getD i default)),
          (seqIdxList shuf cfg.samples.length cfg.shuffle b st).2) := by
  intro b
  induction b with
  | zero => intro st; rfl
  | succ b ih =>
    intro st
    simp only [seqProduceLoop, seqIdxList, ih, List.map_cons]

theorem seqIdxList_length {S : Type u} (shuf : S → List Nat → List Nat × S)
    (n : Nat) (shuffle : Bool) :
    ∀ (b : Nat) (st : SeqState S),
      ((seqIdxList shuf n shuffle b st).1).length = b := by
  intro b
  induction b with
  | zero => intro st; rfl
  | succ b ih =>
    intro st
    simp only [seqIdxList, List.length_cons, ih]

theorem seqProduceBase_length {J S : Type u} [Inhabited J]
    (shuf : S → List Nat → List Nat × S) (cfg : SeqCfg J) (st : SeqState S) :
    ((seqProduceBase shuf cfg st).1).length = cfg.batch_size := by
  unfold seqProduceBase
  rw [seqProduceLoop_eq_map]
  simp only [List.length_map, seqIdxList_length]

theorem freshOrder_ordOK {S : Type u} {shuf : S → List Nat → List Nat × S}
    (hperm : ∀ s l, (shuf s l).1.Perm l) (n : Nat) (shuffle : Bool) (rng : S) :
    ∀ i ∈ (freshOrder shuf n shuffle rng).1, i < n := by
  intro i hi
  unfold freshOrder at hi
  by_cases hs : shuffle
  · simp only [hs, if_true] at hi
    exact List.mem_range.mp ((hperm rng (List.range n)).mem_iff.mp hi)
  · simp only [hs, if_false] at hi
    exact List.mem_range.mp hi

theorem freshOrder_length {S : Type u} {shuf : S → List Nat → List Nat × S}
    (hperm : ∀ s l, (shuf s l).1.Perm l) (n : Nat) (shuffle : Bool) (rng : S) :
    (freshOrder shuf n shuffle rng).1.length = n := by
  unfold freshOrder
  split
  · rw [(hperm rng (List.range n)).length_eq, List.length_range]
  · rw [List.length_range]

theorem seqNextIdx_spec {S : Type u} {shuf : S → List Nat → List Nat × S}
    (hperm : ∀ s l, (shuf s l).1.Perm l) {n : Nat} (hn : 0 < n)
    (shuffle : Bool) (st : SeqState S) (h : ordOK n st) :
    (seqNextIdx shuf n shuffle st).1 < n ∧
      ordOK n (seqNextIdx shuf n shuffle st).2 := by
  unfold seqNextIdx seqInitState
  by_cases hreset : st.order.length ≤ st.pos
  · simp only [hreset, if_true]
    have hpos : 0 < (freshOrder shuf n shuffle st.rng).1.length := by
      rw [freshOrder_length hperm]; exact hn
    constructor
    · have hmem : (freshOrder shuf n shuffle st.rng).1.getD 0 0 ∈
          (freshOrder shuf n shuffle st.rng).1 := by
        rw [List.getD_eq_getElem?_getD, List.getElem?_eq_getElem hpos]
        exact List.getElem_mem hpos
      exact freshOrder_ordOK hperm n shuffle st.rng _ hmem
    · intro i hi
      exact freshOrder_ordOK hperm n shuffle st.rng i hi
  · simp only [hreset, if_false]
    have hp : st.pos < st.order.length := by omega
    constructor
    · have hmem : st.order.getD st.pos 0 ∈ st.order := by
        rw [List.getD_eq_getElem?_getD, List.getElem?_eq_getElem hp]
        exact List.getElem_mem hp
      exact h _ hmem
    · exact h

theorem seqIdxList_lt {S : Type u} {shuf : S → List Nat → List Nat × S}
    (hperm : ∀ s l, (shuf s l).1.Perm l) {n : Nat} (hn : 0 < n)
    (shuffle : Bool) :
    ∀ (b : Nat) (st : SeqState S), ordOK n st →
      (∀ i ∈ (seqIdxList shuf n shuffle b st).1, i < n) ∧
        ordOK n (seqIdxList shuf n shuffle b st).2 := by
  intro b
  induction b with
  | zero => intro st h; exact ⟨by intro i hi; simp [seqIdxList] at hi, h⟩
  | succ b ih =>
    intro st h
    obtain ⟨hlt, hok⟩ := seqNextIdx_spec hperm hn shuffle st h
    obtain ⟨hall, hok'⟩ := ih _ hok
    refine ⟨?_, hok'⟩
    intro i hi
    simp only [seqIdxList, List.mem_cons] at hi
    rcases hi with hi | hi
    · rw [hi]; exact hlt
    · exact hall i hi

/-- C4: for the sequence source over samples `[A, B, C]` with `batch_size = 5`
and `shuffle = False` (no grouping), the first `produce_batch` call returns
requests built from A, B, C, A, B in that exact order, and the immediately
following call starts from C and wraps around to the beginning again. -/
theorem seq_source_abc_wraparound :
    (seqProduceBase trivialShuffle seqCfgABC
        (seqInitState trivialShuffle 3 false ())).1 =
      [buildRequestAt seqCfgABC.toBuildCfg 0 "A",
       buildRequestAt seqCfgABC.toBuildCfg 1 "B",
       buildRequestAt seqCfgABC.toBuildCfg 2 "C",
       buildRequestAt seqCfgABC.toBuildCfg 0 "A",
       buildRequestAt seqCfgABC.toBuildCfg 1 "B"] ∧
    (seqProduceBase trivialShuffle seqCfgABC
        ((seqProduceBase trivialShuffle seqCfgABC
            (seqInitState trivialShuffle 3 false ())).2)).1 =
      [buildRequestAt seqCfgABC.toBuildCfg 2 "C",
       buildRequestAt seqCfgABC.toBuildCfg 0 "A",
       buildRequestAt seqCfgABC.toBuildCfg 1 "B",
       buildRequestAt seqCfgABC.toBuildCfg 2 "C",
       buildRequestAt seqCfgABC.toBuildCfg 0 "A"] := by
  exact ⟨rfl, rfl⟩

/-- C9: both strategies are total on the empty list: `IdentityStrategy.expand`
and `GRPORequestStrategy(G).expand` return `[]` on `[]` for every `G > 0`,
without failing and without consuming any randomness (the result does not
depend on the random or uuid oracles). -/
theorem strategies_total_on_empty {J : Type u} (G : Nat) (hG : 0 < G)
    (rng rng' : Nat → Int) (uuids uuids' : Nat → String) (inj : String → J) :
    IdentityStrategy.expand ([] : List (RolloutRequest J)) = [] ∧
    GRPORequestStrategy.expand G rng uuids inj [] = [] ∧
    GRPORequestStrategy.expand G rng uuids inj [] =
      GRPORequestStrategy.expand G rng' uuids' inj [] :=
  ⟨rfl, rfl, rfl⟩

theorem strategies_total_on_empty_witness :
    IdentityStrategy.expand ([] : List (RolloutRequest String)) = [] ∧
    GRPORequestStrategy.expand 1 (fun _ => 0) uuidSupply id [] = [] ∧
    GRPORequestStrategy.expand 1 (fun _ => 0) uuidSupply id [] =
      GRPORequestStrategy.expand 1 (fun _ => 7) (fun _ => "x") id [] :=
  strategies_total_on_empty 1 (by decide) (fun _ => 0) (fun _ => 7)
    uuidSupply (fun _ => "x") id

/-- C2: each `produce_batch` of the queue source performs at most `batch_size`
non-blocking pulls (the number pulled is `min batch_size (queue length)`,
leaving exactly the rest in the queue); a non-empty pull is built and
optionally strategy-expanded; a zero pull resolves by policy
(`raise` fails with `RequestsExhausted`, `return_empty` returns `[]`); and on
5 queued items with `batch_size = 2` three calls return sizes 2, 2, 1 with a
fourth call behaving per the policy. -/
theorem queue_produce_batch_spec {J Q : Type u} (batch_size : Nat)
    (build : Q → RolloutRequest J)
    (strat : Option (List (RolloutRequest J) → List (RolloutRequest J)))
    (q : List Q) :
    ((q.take batch_size).length = min batch_size q.length ∧
      ∀ pol, (queueProduce batch_size build strat pol q).2 =
        q.drop batch_size) ∧
    (q.take batch_size ≠ [] →
      ∀ pol, (queueProduce batch_size build strat pol q).1 =
        Except.ok (strat.getD id ((q.take batch_size).map build))) ∧
    (q.take batch_size = [] →
      (queueProduce batch_size build strat OnEmpty.raiseExhausted q).1 =
        Except.error "Queue is empty; no more requests to generate." ∧
      (queueProduce batch_size build strat OnEmpty.returnEmpty q).1 =
        Except.ok []) ∧
    ((queueProduce 2 natReq none OnEmpty.raiseExhausted [0, 1, 2, 3, 4]).1 =
        Except.ok [natReq 0, natReq 1] ∧
      (queueProduce 2 natReq none OnEmpty.raiseExhausted
          (queueProduce 2 natReq none OnEmpty.raiseExhausted
            [0, 1, 2, 3, 4]).2).1 =
        Except.ok [natReq 2, natReq 3] ∧
      (queueProduce 2 natReq none OnEmpty.raiseExhausted
          (queueProduce 2 natReq none OnEmpty.raiseExhausted
            (queueProduce 2 natReq none OnEmpty.raiseExhausted
              [0, 1, 2, 3, 4]).2).2).1 =
        Except.ok [natReq 4] ∧
      (queueProduce 2 natReq none OnEmpty.raiseExhausted
          (queueProduce 2 natReq none OnEmpty.raiseExhausted
            (queueProduce 2 natReq none OnEmpty.raiseExhausted
              (queueProduce 2 natReq none OnEmpty.raiseExhausted
                [0, 1, 2, 3, 4]).2).2).2).1 =
        Except.error "Queue is empty; no more requests to generate." ∧
      (queueProduce 2 natReq none OnEmpty.returnEmpty
          (queueProduce 2 natReq none OnEmpty.raiseExhausted
            (queueProduce 2 natReq none OnEmpty.raiseExhausted
              (queueProduce 2 natReq none OnEmpty.raiseExhausted
                [0, 1, 2, 3, 4]).2).2).2).1 =
        Except.ok []) := by
  refine ⟨⟨by rw [List.length_take], ?_⟩, ?_, ?_, ?_, ?_, ?_, ?_, ?_⟩
  · intro pol
    unfold queueProduce
    dsimp only
    split
    · cases pol <;> rfl
    · cases strat <;> rfl
  · intro hne pol
    obtain ⟨a, t, ht⟩ : ∃ a t, q.take batch_size = a :: t := by
      cases hq : q.take batch_size with
      | nil => exact absurd hq hne
      | cons a t => exact ⟨a, t, rfl⟩
    unfold queueProduce
    dsimp only
    rw [ht]
    cases strat <;> rfl
  · intro he
    constructor <;> (unfold queueProduce; simp [he])
  · rfl
  · rfl
  · rfl
  · rfl
  · rfl

/-- C8 counterexample: constructing the sequence-backed source with
`batch_size = 0` over a non-empty dataset with no grouping succeeds, so
`batch_size <= 0` is not rejected at construction by the sequence source
(the claim asserts it fails for either source). -/
theorem seq_construction_no_batch_size_check :
    makeDatasetSequenceRequestsFnCheck (["x"] : List String) 0 1 =
      Except.ok () := rfl

/-- C8 (amended): `group_size <= 0` fails at construction of
`GRPORequestStrategy`; `batch_size <= 0` fails at construction for the
queue-backed source; an empty sample sequence (or a non-positive non-unit
`group_size`) fails at construction for the sequence-backed source; but the
sequence-backed source accepts any `batch_size` without validation. -/
theorem construction_validation_spec {J : Type u} (g bs : Int)
    (samples : List J) :
    (g ≤ 0 → GRPORequestStrategy.validate g =
      Except.error "group_size must be positive") ∧
    (0 < g → GRPORequestStrategy.validate g = Except.ok ()) ∧
    (bs ≤ 0 → makeRequestsFnFromQueueCheck bs =
      Except.error "batch_size must be positive") ∧
    (samples = [] → makeDatasetSequenceRequestsFnCheck samples bs g =
      Except.error "samples must be non-empty") ∧
    (samples ≠ [] → makeDatasetSequenceRequestsFnCheck samples bs 1 =
      Except.ok ()) ∧
    (samples ≠ [] → g ≤ 0 → makeDatasetSequenceRequestsFnCheck samples bs g =
      Except.error "group_size must be positive") := by
  refine ⟨?_, ?_, ?_, ?_, ?_, ?_⟩
  · intro hg; simp [GRPORequestStrategy.validate, hg]
  · intro hg
    have hng : ¬ g ≤ 0 := by omega
    simp [GRPORequestStrategy.validate, hng]
  · intro hb; simp [makeRequestsFnFromQueueCheck, hb]
  · intro hs; simp [makeDatasetSequenceRequestsFnCheck, hs]
  · intro hs
    simp [makeDatasetSequenceRequestsFnCheck, List.isEmpty_iff, hs]
  · intro hs hg
    have hne : g ≠ 1 := by omega
    simp [makeDatasetSequenceRequestsFnCheck, List.isEmpty_iff, hs, hne,
      GRPORequestStrategy.validate, hg]

theorem construction_validation_spec_witness :
    ((0 : Int) ≤ 0 → GRPORequestStrategy.validate 0 =
      Except.error "group_size must be positive") ∧
    ((0 : Int) < 0 → GRPORequestStrategy.validate 0 = Except.ok ()) ∧
    ((0 : Int) ≤ 0 → makeRequestsFnFromQueueCheck 0 =
      Except.error "batch_size must be positive") ∧
    ((["x"] : List String) = [] → makeDatasetSequenceRequestsFnCheck ["x"] 0 0 =
      Except.error "samples must be non-empty") ∧
    ((["x"] : List String) ≠ [] → makeDatasetSequenceRequestsFnCheck ["x"] 0 1 =
      Except.ok ()) ∧
    ((["x"] : List String) ≠ [] → (0 : Int) ≤ 0 →
      makeDatasetSequenceRequestsFnCheck ["x"] 0 0 =
        Except.error "group_size must be positive") :=
  construction_validation_spec 0 0 ["x"]

theorem queue_produce_batch_spec_witness :
    (([0, 1, 2, 3, 4] : List Nat).take 2 ≠ [] ∧
      (queueProduce 2 natReq none OnEmpty.raiseExhausted [0, 1, 2, 3, 4]).1 =
        Except.ok ((none : Option (List (RolloutRequest String) →
            List (RolloutRequest String))).getD id
          ((([0, 1, 2, 3, 4] : List Nat).take 2).map natReq))) ∧
    (([] : List Nat).take 2 = [] ∧
      (queueProduce 2 natReq none OnEmpty.raiseExhausted ([] : List Nat)).1 =
        Except.error "Queue is empty; no more requests to generate.") :=
  ⟨⟨by decide,
    (queue_produce_batch_spec 2 natReq none [0, 1, 2, 3, 4]).2.1 (by decide)
      OnEmpty.raiseExhausted⟩,
   ⟨rfl,
    ((queue_produce_batch_spec 2 natReq none ([] : List Nat)).2.2.1 rfl).1⟩⟩

theorem grpoExpandAux_rng_irrel {J : Type u} (G : Nat) (uuids : Nat → String)
    (inj : String → J) :
    ∀ (reqs : List (RolloutRequest J)),
      (∀ r ∈ reqs, r.env_seed.isSome ∧ r.sampling_seed.isSome) →
      ∀ (rng rng' : Nat → Int) (rc rc' uc : Nat),
        grpoExpandAux G rng uuids inj reqs rc uc =
          grpoExpandAux G rng' uuids inj reqs rc' uc := by
  intro reqs
  induction reqs with
  | nil => intro _ rng rng' rc rc' uc; rfl
  | cons base rest ih =>
    intro h rng rng' rc rc' uc
    obtain ⟨e, he⟩ :=
      Option.isSome_iff_exists.mp (h base (List.mem_cons_self _ _)).1
    obtain ⟨s, hs⟩ :=
      Option.isSome_iff_exists.mp (h base (List.mem_cons_self _ _)).2
    simp only [grpoExpandAux, grpoDraw, he, hs]
    rw [ih (fun r hr => h r (List.mem_cons_of_mem _ hr)) rng rng' rc rc'
      (uc + 1)]

theorem grpoExpandAux_seedPlan {J : Type u} (G : Nat) (rng : Nat → Int)
    (uuids : Nat → String) (inj : String → J) :
    ∀ (reqs : List (RolloutRequest J)),
      (∀ r ∈ reqs, r.env_seed.isSome ∧ r.sampling_seed.isSome) →
      ∀ (rc uc : Nat),
        (grpoExpandAux G rng uuids inj reqs rc uc).map
            (fun r => (r.env_seed, r.sampling_seed)) = grpoSeedPlan G reqs := by
  intro reqs
  induction reqs with
  | nil => intro _ rc uc; rfl
  | cons base rest ih =>
    intro h rc uc
    obtain ⟨e, he⟩ :=
      Option.isSome_iff_exists.mp (h base (List.mem_cons_self _ _)).1
    obtain ⟨s, hs⟩ :=
      Option.isSome_iff_exists.mp (h base (List.mem_cons_self _ _)).2
    simp only [grpoExpandAux, grpoDraw, he, hs, grpoSeedPlan,
      List.flatMap_cons, List.map_append]
    congr 1
    · simp [grpoGroup, List.map_map, Function.comp, he, hs]
    · have hrest := ih (fun r hr => h r (List.mem_cons_of_mem _ hr)) rc (uc + 1)
      simpa [grpoSeedPlan] using hrest

/-- C10: every request built by the convenience factories carries `some`
integer seeds (`env_seed`/`sampling_seed` from the seed functions, default
`idx`), so GRPO expansion of such batches never takes its private-PRNG
fallback branches: the expanded output is the same for any random stream, and
its seed pairs are the pure function `grpoSeedPlan` of the input batch. -/
theorem factory_requests_feed_grpo_deterministically {J : Type u} (G : Nat)
    (cfg : BuildCfg J) (idx : Nat) (sample : J)
    (reqs : List (RolloutRequest J))
    (hseeds : ∀ r ∈ reqs, r.env_seed.isSome ∧ r.sampling_seed.isSome)
    (rng rng' : Nat → Int) (uuids : Nat → String) (inj : String → J) :
    (buildRequestAt cfg idx sample).env_seed =
      some (cfg.envSeedFinal idx sample) ∧
    (buildRequestAt cfg idx sample).sampling_seed =
      some (cfg.sampSeedFinal idx sample) ∧
    GRPORequestStrategy.expand G rng uuids inj reqs =
      GRPORequestStrategy.expand G rng' uuids inj reqs ∧
    (GRPORequestStrategy.expand G rng uuids inj reqs).map
        (fun r => (r.env_seed, r.sampling_seed)) = grpoSeedPlan G reqs := by
  refine ⟨rfl, rfl, ?_, ?_⟩
  · exact grpoExpandAux_rng_irrel G uuids inj reqs hseeds rng rng' 0 0 0
  · exact grpoExpandAux_seedPlan G rng uuids inj reqs hseeds 0 0

theorem factory_requests_feed_grpo_deterministically_witness :
    (buildRequestAt { env_kind := "env", protocol_kind := "proto" } 3 "s"
        ).env_seed =
      some (BuildCfg.envSeedFinal { env_kind := "env", protocol_kind := "proto" }
        3 "s") ∧
    (buildRequestAt { env_kind := "env", protocol_kind := "proto" } 3 "s"
        ).sampling_seed =
      some (BuildCfg.sampSeedFinal { env_kind := "env", protocol_kind := "proto" }
        3 "s") ∧
    GRPORequestStrategy.expand 2 (fun _ => 11) uuidSupply id [natReq 0] =
      GRPORequestStrategy.expand 2 (fun _ => 99) uuidSupply id [natReq 0] ∧
    (GRPORequestStrategy.expand 2 (fun _ => 11) uuidSupply id [natReq 0]).map
        (fun r => (r.env_seed, r.sampling_seed)) =
      grpoSeedPlan 2 [natReq 0] :=
  factory_requests_feed_grpo_deterministically 2
    { env_kind := "env", protocol_kind := "proto" } 3 "s" [natReq 0]
    (by intro r hr; simp [natReq] at hr; simp [hr, natReq])
    (fun _ => 11) (fun _ => 99) uuidSupply id

theorem getElem?_some_lt {α : Type u} {l : List α} {b : Nat} {x : α}
    (h : l[b]? = some x) : b < l.length := by
  by_contra hc
  rw [List.getElem?_eq_none (by omega)] at h
  exact Option.noConfusion h

/-- C5: with no override functions, every request served by the sequence
source is built at an in-range unshuffled dataset index `idx` and carries
`env_seed = idx`, `sampling_seed = idx` and kwargs `[("sample", samples[idx])]`
— the default seed derivation uses the sample's position in the unshuffled
dataset even when shuffle reorders visitation; and supplying an env-seed
override function changes only the seed, leaving `EnvSpec.kind`/`kwargs`,
protocol, meta and the sampling seed untouched. -/
theorem seq_default_seed_derivation {J S : Type u} [Inhabited J]
    (shuf : S → List Nat → List Nat × S)
    (hperm : ∀ s l, (shuf s l).1.Perm l)
    (cfg : SeqCfg J) (hn : 0 < cfg.samples.length)
    (hkw : cfg.env_kwargs_fn = none) (hes : cfg.env_seed_fn = none)
    (hss : cfg.sampling_seed_fn = none)
    (st : SeqState S) (hord : ordOK cfg.samples.length st)
    (r : RolloutRequest J) (hr : r ∈ (seqProduceBase shuf cfg st).1)
    (f : Nat → J → Int) (idx2 : Nat) (sample2 : J) :
    (∃ idx, idx < cfg.samples.length ∧
      r = buildRequestAt cfg.toBuildCfg idx (cfg.samples.getD idx default) ∧
      r.env_seed = some (idx : Int) ∧
      r.sampling_seed = some (idx : Int) ∧
      r.env.kind = cfg.env_kind ∧
      r.env.kwargs = [("sample", cfg.samples.getD idx default)]) ∧
    ((buildRequestAt { cfg.toBuildCfg with env_seed_fn := some f }
        idx2 sample2).env_seed = some (f idx2 sample2) ∧
      (buildRequestAt { cfg.toBuildCfg with env_seed_fn := some f }
        idx2 sample2).env = (buildRequestAt cfg.toBuildCfg idx2 sample2).env ∧
      (buildRequestAt { cfg.toBuildCfg with env_seed_fn := some f }
        idx2 sample2).protocol =
        (buildRequestAt cfg.toBuildCfg idx2 sample2).protocol ∧
      (buildRequestAt { cfg.toBuildCfg with env_seed_fn := some f }
        idx2 sample2).meta =
        (buildRequestAt cfg.toBuildCfg idx2 sample2).meta ∧
      (buildRequestAt { cfg.toBuildCfg with env_seed_fn := some f }
        idx2 sample2).sampling_seed =
        (buildRequestAt cfg.toBuildCfg idx2 sample2).sampling_seed) := by
  constructor
  · unfold seqProduceBase at hr
    rw [seqProduceLoop_eq_map] at hr
    obtain ⟨idx, hidx, he⟩ := List.mem_map.mp hr
    have hlt : idx < cfg.samples.length :=
      (seqIdxList_lt hperm hn cfg.shuffle cfg.batch_size st hord).1 idx hidx
    refine ⟨idx, hlt, he.symm, ?_, ?_, ?_, ?_⟩
    · rw [← he]
      simp [buildRequestAt, BuildCfg.envSeedFinal, hes]
    · rw [← he]
      simp [buildRequestAt, BuildCfg.sampSeedFinal, hss]
    · rw [← he]
      rfl
    · rw [← he]
      simp [buildRequestAt, BuildCfg.envKwargsFinal, hkw]
  · exact ⟨rfl, rfl, rfl, rfl, rfl⟩

/-- C6: GRPO expansion preserves an explicitly set base `env_seed` verbatim on
all `G` outputs of its group, preserves an explicitly set base `sampling_seed`
verbatim on the group's first output, leaves every meta key other than
`"group_id"` unchanged in each output's meta, and builds each output as a
fresh copy of the base (env, protocol and inference fields identical), never
mutating any input request. -/
theorem grpo_expand_preserves_base {J : Type u} (G : Nat)
    (rng : Nat → Int) (uuids : Nat → String) (inj : String → J)
    (reqs : List (RolloutRequest J)) (b : Nat) (base : RolloutRequest J)
    (hb : reqs[b]? = some base) :
    ∃ grp, (grpoGroupsList G rng uuids inj reqs 0 0)[b]? = some grp ∧
      GRPORequestStrategy.expand G rng uuids inj reqs =
        (grpoGroupsList G rng uuids inj reqs 0 0).flatten ∧
      (∀ s, base.env_seed = some s → ∀ r ∈ grp, r.env_seed = some s) ∧
      (∀ s, base.sampling_seed = some s → ∀ r, grp[0]? = some r →
        r.sampling_seed = some s) ∧
      (∀ r ∈ grp, ∀ k, k ≠ "group_id" →
        lookupKey r.meta k = lookupKey base.meta k) ∧
      (∀ r ∈ grp, r.env = base.env ∧ r.protocol = base.protocol ∧
        r.inference = base.inference) := by
  have hblt : b < reqs.length := getElem?_some_lt hb
  obtain ⟨p, hp⟩ := grpoSeeds_isSome rng reqs 0 b hblt
  refine ⟨grpoGroup G inj base p.1 p.2 (uuids (0 + b)),
    grpoGroupsList_getElem? G rng uuids inj reqs 0 0 b base p hb hp,
    grpoExpandAux_eq_join G rng uuids inj reqs 0 0, ?_, ?_, ?_, ?_⟩
  · intro s hs r hrm
    obtain ⟨i, hi, he⟩ := mem_grpoGroup hrm
    have h1 := (grpoSeeds_explicit rng reqs 0 b base p hb hp).1 s hs
    rw [he, h1]
  · intro s hs r hr0
    have hG : 0 < G := by
      by_contra hG0
      have hz : G = 0 := by omega
      subst hz
      simp [grpoGroup] at hr0
    rw [grpoGroup_getElem? G inj base p.1 p.2 (uuids (0 + b)) 0 hG] at hr0
    have h2 := (grpoSeeds_explicit rng reqs 0 b base p hb hp).2 s hs
    have hr0' := Option.some.inj hr0
    rw [← hr0']
    simp [h2]
  · intro r hrm k hk
    obtain ⟨i, hi, he⟩ := mem_grpoGroup hrm
    rw [he]
    exact lookupKey_dictInsert_ne base.meta "group_id" k (inj (uuids (0 + b))) hk
  · intro r hrm
    obtain ⟨i, hi, he⟩ := mem_grpoGroup hrm
    rw [he]
    exact ⟨rfl, rfl, rfl⟩

/-- C1: GRPO expansion of `N` base requests returns exactly `N*G` requests,
the concatenation (in base-request order, groups contiguous) of `N` groups of
`G`; each group shares one `env_seed` (the base's explicit one when present),
carries sampling seeds `base_sampling_seed + i` for `i = 0..G-1` (ascending,
hence pairwise distinct, with `base_sampling_seed` the base's explicit
sampling seed when present), shares one `group_id` in meta distinct from
every other group's, and every output has `num_episodes = 1`. -/
theorem grpo_expand_group_structure {J : Type u} (G : Nat) (hG : 0 < G)
    (rng : Nat → Int) (uuids : Nat → String)
    (hu : Function.Injective uuids) (inj : String → J)
    (hinj : Function.Injective inj) (reqs : List (RolloutRequest J)) :
    (GRPORequestStrategy.expand G rng uuids inj reqs).length =
      reqs.length * G ∧
    GRPORequestStrategy.expand G rng uuids inj reqs =
      (grpoGroupsList G rng uuids inj reqs 0 0).flatten ∧
    (grpoGroupsList G rng uuids inj reqs 0 0).length = reqs.length ∧
    (∀ b base, reqs[b]? = some base →
      ∃ grp, (grpoGroupsList G rng uuids inj reqs 0 0)[b]? = some grp ∧
        grp.length = G ∧
        (∀ r ∈ grp, r.num_episodes = 1) ∧
        (∃ e : Int, (∀ r ∈ grp, r.env_seed = some e) ∧
          ∀ s, base.env_seed = some s → e = s) ∧
        (∃ bss : Int,
          (∀ i, i < G → ∀ r, grp[i]? = some r →
            r.sampling_seed = some (bss + (i : Int))) ∧
          (∀ s, base.sampling_seed = some s → bss = s)) ∧
        (∀ i j, i < G → j < G → i < j → ∀ ri rj, grp[i]? = some ri →
          grp[j]? = some rj → ∀ si sj, ri.sampling_seed = some si →
            rj.sampling_seed = some sj → si < sj) ∧
        (∀ r ∈ grp, lookupKey r.meta "group_id" = some (inj (uuids b)))) ∧
    (∀ b b', b ≠ b' → inj (uuids b) ≠ inj (uuids b')) := by
  refine ⟨grpoExpandAux_length G rng uuids inj reqs 0 0,
    grpoExpandAux_eq_join G rng uuids inj reqs 0 0,
    grpoGroupsList_length G rng uuids inj reqs 0 0, ?_, ?_⟩
  · intro b base hb
    have hblt : b < reqs.length := getElem?_some_lt hb
    obtain ⟨p, hp⟩ := grpoSeeds_isSome rng reqs 0 b hblt
    have hgrp := grpoGroupsList_getElem? G rng uuids inj reqs 0 0 b base p hb hp
    rw [show (0 : Nat) + b = b by omega] at hgrp
    refine ⟨grpoGroup G inj base p.1 p.2 (uuids b), hgrp,
      grpoGroup_length G inj base p.1 p.2 (uuids b), ?_, ?_, ?_, ?_, ?_⟩
    · intro r hrm
      obtain ⟨i, hi, he⟩ := mem_grpoGroup hrm
      rw [he]
    · refine ⟨p.1, ?_, ?_⟩
      · intro r hrm
        obtain ⟨i, hi, he⟩ := mem_grpoGroup hrm
        rw [he]
      · intro s hs
        exact (grpoSeeds_explicit rng reqs 0 b base p hb hp).1 s hs
    · refine ⟨p.2, ?_, ?_⟩
      · intro i hi r hr
        rw [grpoGroup_getElem? G inj base p.1 p.2 (uuids b) i hi] at hr
        rw [← Option.some.inj hr]
      · intro s hs
        exact (grpoSeeds_explicit rng reqs 0 b base p hb hp).2 s hs
    · intro i j hi hj hij ri rj hri hrj si sj hsi hsj
      rw [grpoGroup_getElem? G inj base p.1 p.2 (uuids b) i hi] at hri
      rw [grpoGroup_getElem? G inj base p.1 p.2 (uuids b) j hj] at hrj
      rw [← Option.some.inj hri] at hsi
      rw [← Option.some.inj hrj] at hsj
      simp only [Option.some.injEq] at hsi hsj
      rw [← hsi, ← hsj]
      have : (i : Int) < (j : Int) := by exact_mod_cast hij
      omega
    · intro r hrm
      obtain ⟨i, hi, he⟩ := mem_grpoGroup hrm
      rw [he]
      exact lookupKey_dictInsert_self base.meta "group_id" (inj (uuids b))
  · intro b b' hne heq
    exact hne (hu (hinj heq))

/-- C3 counterexample: with a configured GRPO strategy (`group_size = 2`,
`batch_size = 1`, dataset `["A"]`) a single `produce_batch` call of the
sequence source returns 2 requests, not `batch_size = 1`, refuting the claim
for arbitrary configured strategies. -/
theorem seq_produce_batch_size_counterexample :
    ((seqProduce trivialShuffle seqCfgGrouped (fun _ => 0) uuidSupply id
        (seqInitState trivialShuffle 1 false ())).1).length = 2 ∧
    seqCfgGrouped.batch_size = 1 := ⟨rfl, rfl⟩

/-- C3 (amended): the sequence source's `produce_batch` never fails and always
serves exactly `batch_size` base requests regardless of cursor position,
dataset size, shuffle flag or seeds; the returned list has `batch_size`
elements when no strategy is configured and `batch_size * G` elements under a
configured GRPO(G) strategy; and whenever the cursor has run past the end of
the order it resets to position zero over a fresh order (a new permutation
drawn from the private PRNG when shuffle is enabled) before serving. -/
theorem seq_produce_batch_size_spec {J S : Type u} [Inhabited J]
    (shuf : S → List Nat → List Nat × S) (cfg : SeqCfg J)
    (rng : Nat → Int) (uuids : Nat → String) (inj : String → J)
    (st : SeqState S) :
    ((seqProduceBase shuf cfg st).1).length = cfg.batch_size ∧
    (cfg.group_size = 1 →
      ((seqProduce shuf cfg rng uuids inj st).1).length = cfg.batch_size) ∧
    (cfg.group_size ≠ 1 →
      ((seqProduce shuf cfg rng uuids inj st).1).length =
        cfg.batch_size * cfg.group_size.toNat) ∧
    (st.order.length ≤ st.pos →
      seqNextIdx shuf cfg.samples.length cfg.shuffle st =
        (((freshOrder shuf cfg.samples.length cfg.shuffle st.rng).1).getD 0 0,
          ⟨1, (freshOrder shuf cfg.samples.length cfg.shuffle st.rng).1,
            (freshOrder shuf cfg.samples.length cfg.shuffle st.rng).2⟩)) := by
  refine ⟨seqProduceBase_length shuf cfg st, ?_, ?_, ?_⟩
  · intro h1
    simp only [seqProduce, h1, if_true]
    exact seqProduceBase_length shuf cfg st
  · intro hne
    simp only [seqProduce, hne, if_false]
    unfold GRPORequestStrategy.expand
    rw [grpoExpandAux_length, seqProduceBase_length]
  · intro hreset
    unfold seqNextIdx seqInitState
    simp only [hreset, if_true]

theorem seq_produce_batch_size_spec_witness :
    ((seqProduceBase trivialShuffle seqCfgGrouped
        (seqInitState trivialShuffle 1 false ())).1).length =
      seqCfgGrouped.batch_size ∧
    (seqCfgGrouped.group_size = 1 →
      ((seqProduce trivialShuffle seqCfgGrouped (fun _ => 0) uuidSupply id
          (seqInitState trivialShuffle 1 false ())).1).length =
        seqCfgGrouped.batch_size) ∧
    (seqCfgGrouped.group_size ≠ 1 →
      ((seqProduce trivialShuffle seqCfgGrouped (fun _ => 0) uuidSupply id
          (seqInitState trivialShuffle 1 false ())).1).length =
        seqCfgGrouped.batch_size * seqCfgGrouped.group_size.toNat) ∧
    ((seqInitState trivialShuffle 1 false ()).order.length ≤
        (seqInitState trivialShuffle 1 false ()).pos →
      seqNextIdx trivialShuffle seqCfgGrouped.samples.length
          seqCfgGrouped.shuffle (seqInitState trivialShuffle 1 false ()) =
        (((freshOrder trivialShuffle seqCfgGrouped.samples.length
              seqCfgGrouped.shuffle (seqInitState trivialShuffle 1 false ()).rng
            ).1).getD 0 0,
          ⟨1, (freshOrder trivialShuffle seqCfgGrouped.samples.length
              seqCfgGrouped.shuffle (seqInitState trivialShuffle 1 false ()).rng
            ).1,
            (freshOrder trivialShuffle seqCfgGrouped.samples.length
              seqCfgGrouped.shuffle (seqInitState trivialShuffle 1 false ()).rng
            ).2⟩)) :=
  seq_produce_batch_size_spec trivialShuffle seqCfgGrouped (fun _ => 0)
    uuidSupply id (seqInitState trivialShuffle 1 false ())

theorem seqCallBatches_eq_map {J S : Type u} [Inhabited J]
    (shuf : S → List Nat → List Nat × S) (cfg : SeqCfg J) :
    ∀ (k : Nat) (st : SeqState S),
      seqCallBatches shuf cfg k st =
        (seqCallTraces shuf cfg.samples.length cfg.shuffle cfg.batch_size k
            st).map
          (fun l => l.map (fun i =>
            buildRequestAt cfg.toBuildCfg i (cfg.samples.getD i default))) := by
  intro k
  induction k with
  | zero => intro st; rfl
  | succ k ih =>
    intro st
    unfold seqCallBatches seqCallTraces
    dsimp only
    rw [List.map_cons]
    unfold seqProduceBase
    rw [seqProduceLoop_eq_map]
    rw [ih]

/-- C7: the visitation order of the sequence source depends only on the
dataset size, batch size, shuffle flag and the private PRNG stream: over any
number `k` of `produce_batch` calls (including epoch wraps with reshuffling),
two sources built with `shuffle = true`, the same `rng_seed` (same initial
PRNG state), the same batch size and same-size datasets serve batches that
are per-index images of one shared visitation trace — in particular two
identically built sources produce identical request streams. -/
theorem seq_visitation_deterministic {J K S : Type u} [Inhabited J]
    [Inhabited K] (shuf : S → List Nat → List Nat × S)
    (cfg : SeqCfg J) (cfg' : SeqCfg K) (n bs : Nat)
    (hn : cfg.samples.length = n) (hn' : cfg'.samples.length = n)
    (hb : cfg.batch_size = bs) (hb' : cfg'.batch_size = bs)
    (hs : cfg.shuffle = true) (hs' : cfg'.shuffle = true)
    (rng0 : S) (k : Nat) :
    seqCallBatches shuf cfg k (seqInitState shuf n true rng0) =
      (seqCallTraces shuf n true bs k (seqInitState shuf n true rng0)).map
        (fun l => l.map (fun i =>
          buildRequestAt cfg.toBuildCfg i (cfg.samples.getD i default))) ∧
    seqCallBatches shuf cfg' k (seqInitState shuf n true rng0) =
      (seqCallTraces shuf n true bs k (seqInitState shuf n true rng0)).map
        (fun l => l.map (fun i =>
          buildRequestAt cfg'.toBuildCfg i (cfg'.samples.getD i default))) := by
  constructor
  · rw [seqCallBatches_eq_map, hn, hb, hs]
  · rw [seqCallBatches_eq_map, hn', hb', hs']

theorem grpo_expand_group_structure_witness :
    (GRPORequestStrategy.expand 2 (fun _ => 0) uuidSupply id
        [natReq 5]).length = [natReq 5].length * 2 :=
  (grpo_expand_group_structure 2 (by decide) (fun _ => 0) uuidSupply
    uuidSupply_injective id (fun _ _ h => h) [natReq 5]).1

theorem grpo_expand_preserves_base_witness :
    ∃ grp, (grpoGroupsList 2 (fun _ => 0) uuidSupply id [natReq 5] 0 0)[0]? =
        some grp ∧
      GRPORequestStrategy.expand 2 (fun _ => 0) uuidSupply id [natReq 5] =
        (grpoGroupsList 2 (fun _ => 0) uuidSupply id [natReq 5] 0 0).flatten ∧
      (∀ s, (natReq 5).env_seed = some s → ∀ r ∈ grp, r.env_seed = some s) ∧
      (∀ s, (natReq 5).sampling_seed = some s → ∀ r, grp[0]? = some r →
        r.sampling_seed = some s) ∧
      (∀ r ∈ grp, ∀ k, k ≠ "group_id" →
        lookupKey r.meta k = lookupKey (natReq 5).meta k) ∧
      (∀ r ∈ grp, r.env = (natReq 5).env ∧ r.protocol = (natReq 5).protocol ∧
        r.inference = (natReq 5).inference) :=
  grpo_expand_preserves_base 2 (fun _ => 0) uuidSupply id [natReq 5] 0
    (natReq 5) rfl

theorem seq_default_seed_derivation_witness :
    ∃ idx, idx < seqCfgABC.samples.length ∧
      buildRequestAt seqCfgABC.toBuildCfg 0 "A" =
        buildRequestAt seqCfgABC.toBuildCfg idx
          (seqCfgABC.samples.getD idx default) ∧
      (buildRequestAt seqCfgABC.toBuildCfg 0 "A").env_seed =
        some (idx : Int) ∧
      (buildRequestAt seqCfgABC.toBuildCfg 0 "A").sampling_seed =
        some (idx : Int) ∧
      (buildRequestAt seqCfgABC.toBuildCfg 0 "A").env.kind =
        seqCfgABC.env_kind ∧
      (buildRequestAt seqCfgABC.toBuildCfg 0 "A").env.kwargs =
        [("sample", seqCfgABC.samples.getD idx default)] :=
  (seq_default_seed_derivation trivialShuffle (fun _ l => List.Perm.refl l)
    seqCfgABC (by decide) rfl rfl rfl
    (seqInitState trivialShuffle 3 false ())
    (by intro i hi; exact List.mem_range.mp hi)
    (buildRequestAt seqCfgABC.toBuildCfg 0 "A") (by decide)
    (fun _ _ => (100 : Int)) 1 "B").1

theorem seq_visitation_deterministic_witness :
    seqCallBatches trivialShuffle seqCfgShuffledABC 2
        (seqInitState trivialShuffle 3 true ()) =
      (seqCallTraces trivialShuffle 3 true 5 2
          (seqInitState trivialShuffle 3 true ())).map
        (fun l => l.map (fun i =>
          buildRequestAt seqCfgShuffledABC.toBuildCfg i
            (seqCfgShuffledABC.samples.getD i default))) ∧
    seqCallBatches trivialShuffle seqCfgShuffledXYZ 2
        (seqInitState trivialShuffle 3 true ()) =
      (seqCallTraces trivialShuffle 3 true 5 2
          (seqInitState trivialShuffle 3 true ())).map
        (fun l => l.map (fun i =>
          buildRequestAt seqCfgShuffledXYZ.toBuildCfg i
            (seqCfgShuffledXYZ.samples.getD i default))) :=
  seq_visitation_deterministic trivialShuffle seqCfgShuffledABC
    seqCfgShuffledXYZ 3 5 rfl rfl rfl rfl rfl rfl () 2
